import Mathlib

/-!
Verification of the Caesar-shift brute-force decoder from
`Zen Of Python/this_decyphered.ipynb`.

The notebook's search loop is embedded shallowly: Python strings become
`List Char`, Python slicing (including its clamping behaviour on negative
indices) is modelled by `pyStart`, `str.maketrans`/`str.translate` by an
association-list lookup, the dictionary (a JSON object whose values are
tested for truthiness via `dict.get(word, None)`) by an association list
into a small type of Python values, and the `while matches < 25` loop by
the iterate `textAt`.
-/

/-- The source alphabet, `'ABCDEFGHIJKLMNOPQRSTUVWXYZ'.lower()` in the code. -/
def DIRECT : List Char := "abcdefghijklmnopqrstuvwxyz".toList

/-- Effective start index of a Python slice bound `i` on a sequence of
length `len`: negative bounds count from the end and clamp at 0,
nonnegative bounds are used as is (`drop`/`take` handle overshoot). -/
def pyStart (len : Nat) (i : Int) : Nat :=
  if i < 0 then ((len : Int) + i).toNat else i.toNat

/-- Python `l[i:]`. -/
def pySliceFrom (l : List Char) (i : Int) : List Char :=
  l.drop (pyStart l.length i)

/-- Python `l[:i]`. -/
def pySliceTo (l : List Char) (i : Int) : List Char :=
  l.take (pyStart l.length i)

/-- The rotated alphabet the searcher builds at counter value `shift`:
`DIRECT[26-shift:] + DIRECT[:26-shift]`. -/
def cypher (shift : Nat) : List Char :=
  pySliceFrom DIRECT (26 - (shift : Int)) ++ pySliceTo DIRECT (26 - (shift : Int))

/-- The substitution table `dict(zip(DIRECT, cypher))`. -/
def switch (shift : Nat) : List (Char × Char) :=
  DIRECT.zip (cypher shift)

/-- Per-character behaviour of `str.translate`: characters found in the
table are replaced, all others pass through unchanged. -/
def lookupChar (m : List (Char × Char)) (c : Char) : Char :=
  match m.lookup c with
  | some d => d
  | none => c

/-- One application of `s.translate(s.maketrans(switch))` at counter
value `shift`. -/
def translateStep (shift : Nat) (t : List Char) : List Char :=
  t.map (lookupChar (switch shift))

/-- Python `str.lower` on a single character (ASCII letters only, which
covers every character of the inputs involved). -/
def pyLowerChar (c : Char) : Char :=
  if 'A' ≤ c ∧ c ≤ 'Z' then Char.ofNat (c.toNat + 32) else c

/-- Python `str.lower`. -/
def pyLower (t : List Char) : List Char := t.map pyLowerChar

/-- Python whitespace, as recognised by argumentless `str.split`. -/
def pyIsSpace (c : Char) : Bool :=
  c = ' ' || c = '\t' || c = '\n' || c = '\r' || c = '\x0b' || c = '\x0c'

/-- Python `line.split()`: maximal runs of non-whitespace characters. -/
def pySplitWs (t : List Char) : List (List Char) :=
  (t.splitOnP pyIsSpace).filter (fun w => !w.isEmpty)

/-- The notebook's `get_words`: split the text on newlines and yield the
whitespace-separated words of each line in order. -/
def get_words (t : List Char) : List (List Char) :=
  (t.splitOn '\n').flatMap pySplitWs

/-- Python values that can appear in the loaded JSON dictionary. -/
inductive PyVal where
  | none
  | bool (b : Bool)
  | int (n : Int)
  | str (s : List Char)
deriving DecidableEq

/-- Python truthiness of a `PyVal`. -/
def PyVal.truthy : PyVal → Bool
  | .none => false
  | .bool b => b
  | .int n => n != 0
  | .str s => !s.isEmpty

/-- The dictionary: an association list of words to Python values,
modelling the `OrderedDict` loaded from `dictionary.json`. -/
abbrev Dict : Type := List (List Char × PyVal)

/-- Python `dictionary.get(word, None)`. -/
def dictGet (d : Dict) (w : List Char) : PyVal :=
  match List.lookup w d with
  | some v => v
  | Option.none => PyVal.none

/-- The loop's per-word test `if dictionary.get(word, None):`. -/
def wordMatches (d : Dict) (w : List Char) : Bool :=
  (dictGet d w).truthy

/-- The match count computed in one iteration over the current text. -/
def countMatches (d : Dict) (t : List Char) : Nat :=
  ((get_words t).filter (wordMatches d)).length

/-- Working text after `n` completed loop iterations, starting from the
(already lowercased) initial text `s0`: iteration with counter `k`
applies `translate k`. -/
def textAt (s0 : List Char) : Nat → List Char
  | 0 => s0
  | n + 1 => translateStep n (textAt s0 n)

/-- The match count computed during the iteration whose counter value is
`n` (it inspects the text after that iteration's substitution). -/
def matchesAfter (d : Dict) (s0 : List Char) (n : Nat) : Nat :=
  countMatches d (textAt s0 (n + 1))

/-- The search loop exits iff some iteration reaches 25 matches (the
threshold hard-coded in `while matches < 25`). -/
def terminates (d : Dict) (s : List Char) : Prop :=
  ∃ n, 25 ≤ matchesAfter d (pyLower s) n

/-- Triangular numbers: `tri n = 0 + 1 + ... + (n-1)`. -/
def tri : Nat → Nat
  | 0 => 0
  | n + 1 => tri n + n

/-- Specification-side rotation of the alphabet: the last `r % 26`
letters moved to the front (rotate right by `r` positions, modulo 26). -/
def rotAlpha (r : Nat) : List Char :=
  DIRECT.drop (26 - r % 26) ++ DIRECT.take (26 - r % 26)

/-- Specification-side substitution on one character: letters of the
alphabet are sent to the letter at the same index of the rotated
alphabet, every other character is unchanged. -/
def rotChar (r : Nat) (c : Char) : Char :=
  if c ∈ DIRECT then (rotAlpha r).getD (DIRECT.indexOf c) ' ' else c

/-- Specification-side rotation of a whole text by `r` positions. -/
def rotText (r : Nat) (t : List Char) : List Char :=
  t.map (rotChar r)

/-- The decoding shift `(26 - k) mod 26` (Python semantics: the result
is in `[0, 25]` also for `k > 26`). -/
def invShift (k : Nat) : Nat :=
  ((26 - (k : Int)) % 26).toNat

/-- A concrete run input: 25 copies of `"rovvy"`, the word `"hello"`
Caesar-encoded with key 10 (decoding needs a net rotation of 10). -/
def s_run : List Char := (List.replicate 25 "rovvy ".toList).flatten

/-- Dictionary for the concrete run: it recognises only `"hello"`. -/
def d_run : Dict := [("hello".toList, PyVal.bool true)]

/-- Dictionary of the end-to-end scenario: it contains `"beautiful"`. -/
def d_beautiful : Dict := [("beautiful".toList, PyVal.bool true)]

/-- A dictionary entry whose key is present but whose value is falsy. -/
def d_falsy : Dict := [("x".toList, PyVal.int 0)]

/-! ### Helper lemmas about the substitution table -/

/-- Looking up a character outside the key list of a zipped table fails. -/
theorem lookup_zip_none (ks vs : List Char) (c : Char) (h : c ∉ ks) :
    List.lookup c (ks.zip vs) = none := by
  induction ks generalizing vs with
  | nil => rfl
  | cons k ks ih =>
    cases vs with
    | nil => rfl
    | cons v vs =>
      simp only [List.mem_cons, not_or] at h
      show List.lookup c ((k, v) :: ks.zip vs) = none
      simp only [List.lookup, beq_eq_false_iff_ne.mpr h.1]
      exact ih vs h.2

/-- A table zipping a list with itself acts as the identity. -/
theorem lookupChar_zip_self (l : List Char) (c : Char) :
    lookupChar (l.zip l) c = c := by
  induction l with
  | nil => rfl
  | cons a l ih =>
    show lookupChar ((a, a) :: l.zip l) c = c
    by_cases h : c = a
    · subst h
      simp only [lookupChar, List.lookup, beq_self_eq_true]
    · simp only [lookupChar, List.lookup, beq_eq_false_iff_ne.mpr h]
      exact ih

/-- For counter values `k ≥ 52` both Python slice bounds clamp to 0. -/
theorem pyStart_eq_zero (k : Nat) (h : 52 ≤ k) :
    pyStart 26 (26 - (k : Int)) = 0 := by
  unfold pyStart
  split
  · omega
  · omega

/-- For counter values from 52 on, the rotated alphabet degenerates to
the unrotated alphabet: the slice `DIRECT[26-k:]` clamps to the whole
string and `DIRECT[:26-k]` to the empty one. -/
theorem cypher_of_ge (k : Nat) (h : 52 ≤ k) : cypher k = DIRECT := by
  unfold cypher pySliceFrom pySliceTo
  have hlen : DIRECT.length = 26 := rfl
  rw [hlen, pyStart_eq_zero k h]
  simp

/-- Consequently every iteration with counter at least 52 leaves the
working text unchanged. -/
theorem translateStep_of_ge (k : Nat) (h : 52 ≤ k) (t : List Char) :
    translateStep k t = t := by
  unfold translateStep switch
  rw [cypher_of_ge k h]
  calc t.map (lookupChar (DIRECT.zip DIRECT))
      = t.map id := List.map_congr_left (fun c _ => lookupChar_zip_self DIRECT c)
    _ = t := List.map_id t

/-- For counter values below 53 the built alphabet is the genuine
right rotation by the counter modulo 26. -/
theorem cypher_of_lt : ∀ k : Nat, k < 53 → cypher k = rotAlpha k := by decide

/-- Rotating by `r % 26` is rotating by `r`. -/
theorem rotAlpha_mod (r : Nat) : rotAlpha (r % 26) = rotAlpha r := by
  unfold rotAlpha
  have h : r % 26 % 26 = r % 26 := by omega
  rw [h]

/-- Character rotation only depends on the shift modulo 26. -/
theorem rotChar_mod (r : Nat) (c : Char) : rotChar (r % 26) c = rotChar r c := by
  unfold rotChar
  rw [rotAlpha_mod]

/-- Text rotation only depends on the shift modulo 26. -/
theorem rotText_mod (r : Nat) (t : List Char) : rotText (r % 26) t = rotText r t :=
  List.map_congr_left (fun c _ => rotChar_mod r c)

/-- Characters outside the lowercase alphabet are fixed by rotation. -/
theorem rotChar_not_mem (r : Nat) (c : Char) (h : c ∉ DIRECT) : rotChar r c = c := by
  unfold rotChar
  rw [if_neg h]

/-- Rotation of an alphabet letter, expressed by index arithmetic. -/
theorem rotChar_getD : ∀ r : Nat, r < 26 → ∀ i : Nat, i < 26 →
    rotChar r (DIRECT.getD i ' ') = DIRECT.getD ((i + (26 - r)) % 26) ' ' := by decide

/-- Every alphabet letter is recovered from its index. -/
theorem indexOf_getD : ∀ c ∈ DIRECT,
    DIRECT.indexOf c < 26 ∧ DIRECT.getD (DIRECT.indexOf c) ' ' = c := by decide

/-- Rotations compose additively. -/
theorem rotChar_comp (r1 r2 : Nat) (c : Char) :
    rotChar r2 (rotChar r1 c) = rotChar (r1 + r2) c := by
  rw [← rotChar_mod r1 c, ← rotChar_mod r2, ← rotChar_mod (r1 + r2) c]
  by_cases h : c ∈ DIRECT
  · obtain ⟨hidx, hc⟩ := indexOf_getD c h
    conv_lhs => rw [← hc]
    conv_rhs => rw [← hc]
    rw [rotChar_getD (r1 % 26) (Nat.mod_lt _ (by norm_num)) _ hidx]
    rw [rotChar_getD (r2 % 26) (Nat.mod_lt _ (by norm_num)) _ (Nat.mod_lt _ (by norm_num))]
    rw [rotChar_getD ((r1 + r2) % 26) (Nat.mod_lt _ (by norm_num)) _ hidx]
    congr 1
    omega
  · rw [rotChar_not_mem _ _ h, rotChar_not_mem _ _ h, rotChar_not_mem _ _ h]

/-- Rotation by 0 is the identity on characters. -/
theorem rotChar_zero (c : Char) : rotChar 0 c = c := by
  by_cases h : c ∈ DIRECT
  · obtain ⟨hidx, hc⟩ := indexOf_getD c h
    conv_lhs => rw [← hc]
    rw [rotChar_getD 0 (by norm_num) _ hidx]
    have harith : (DIRECT.indexOf c + (26 - 0)) % 26 = DIRECT.indexOf c := by omega
    rw [harith, hc]
  · exact rotChar_not_mem 0 c h

/-- Rotation by 0 is the identity on texts. -/
theorem rotText_zero (t : List Char) : rotText 0 t = t := by
  calc t.map (rotChar 0) = t.map id := List.map_congr_left (fun c _ => rotChar_zero c)
    _ = t := List.map_id t

/-- Text rotations compose additively. -/
theorem rotText_comp (r1 r2 : Nat) (t : List Char) :
    rotText r2 (rotText r1 t) = rotText (r1 + r2) t := by
  unfold rotText
  rw [List.map_map]
  exact List.map_congr_left (fun c _ => rotChar_comp r1 r2 c)

/-- A rotation whose amount is divisible by 26 is the identity. -/
theorem rotText_of_mod_eq_zero (r : Nat) (h : r % 26 = 0) (t : List Char) :
    rotText r t = t := by
  rw [← rotText_mod r t, h]
  exact rotText_zero t

/-- The substitution table at a bounded counter value agrees with the
specification-side rotation, on alphabet letters (checked exhaustively). -/
theorem lookupChar_zip_rot : ∀ r : Nat, r < 26 → ∀ c ∈ DIRECT,
    lookupChar (DIRECT.zip (rotAlpha r)) c = rotChar r c := by decide

/-- The per-character substitution at counter `k < 53` is rotation by `k`. -/
theorem lookupChar_switch (k : Nat) (hk : k < 53) (c : Char) :
    lookupChar (switch k) c = rotChar k c := by
  unfold switch
  rw [cypher_of_lt k hk]
  by_cases h : c ∈ DIRECT
  · rw [← rotAlpha_mod k, ← rotChar_mod k c]
    exact lookupChar_zip_rot (k % 26) (Nat.mod_lt _ (by norm_num)) c h
  · unfold lookupChar
    rw [lookup_zip_none _ _ _ h, rotChar_not_mem _ _ h]

/-- The iteration with counter `k ≤ 52` rotates the text by `k`. -/
theorem translateStep_eq_rot (k : Nat) (hk : k ≤ 52) (t : List Char) :
    translateStep k t = rotText k t :=
  List.map_congr_left (fun c _ => lookupChar_switch k (by omega) c)

/-- Closed form of the loop state: after `n` iterations the working text
is the initial text rotated by the triangular number `tri (min n 52)`. -/
theorem textAt_closed (s0 : List Char) (n : Nat) :
    textAt s0 n = rotText (tri (min n 52)) s0 := by
  induction n with
  | zero =>
    have h0 : tri (min 0 52) = 0 := rfl
    rw [h0, rotText_zero]
    rfl
  | succ n ih =>
    show translateStep n (textAt s0 n) = _
    rw [ih]
    by_cases h : n ≤ 51
    · rw [translateStep_eq_rot n (by omega), rotText_comp]
      have h1 : min n 52 = n := by omega
      have h2 : min (n + 1) 52 = n + 1 := by omega
      rw [h1, h2]
      rfl
    · rw [translateStep_of_ge n (by omega)]
      have h3 : min (n + 1) 52 = min n 52 := by omega
      rw [h3]

/-- From iteration 52 on the working text is frozen. -/
theorem textAt_of_ge (s0 : List Char) (n : Nat) (h : 52 ≤ n) :
    textAt s0 n = rotText (tri 52) s0 := by
  rw [textAt_closed]
  have hm : min n 52 = 52 := by omega
  rw [hm]

/-- The net rotation accumulated by iteration 52 is `1326 ≡ 0 (mod 26)`,
so the frozen text is the initial text itself. -/
theorem rotText_tri52 (t : List Char) : rotText (tri 52) t = t := by
  apply rotText_of_mod_eq_zero
  decide

/-! ### Claims -/

/-- Claim C2, counterexample: the substitution of a pass does not
advance the cumulative rotation by 1. The first pass (counter 0) applies
the identity, so after one iteration the working text is the lowercased
original itself, not the original rotated by 1 position. -/
theorem C2_counterexample :
    textAt (pyLower "a".toList) 1 = pyLower "a".toList ∧
    textAt (pyLower "a".toList) 1 ≠ rotText 1 (pyLower "a".toList) := by
  refine ⟨by decide, by decide⟩

/-- Claim C2, amended: the pass with counter value `k` rotates the
working text by `min k 52` further positions (i.e. by `k` modulo 26
while `k ≤ 52`, and by 0 from counter 52 on, where the Python slices
clamp), not by 1 per pass. -/
theorem C2_pass_rotation (k : Nat) (t : List Char) :
    translateStep k t = rotText (min k 52) t := by
  by_cases h : k ≤ 52
  · rw [min_eq_left h]
    exact translateStep_eq_rot k h t
  · rw [min_eq_right (by omega : (52 : Nat) ≤ k)]
    rw [translateStep_of_ge k (by omega)]
    exact (rotText_of_mod_eq_zero 52 (by norm_num) t).symm

/-- Claim C4, counterexample: at shift value 53 the slice expression
`DIRECT[26-s:]+DIRECT[:26-s]` clamps to the unrotated alphabet instead
of the alphabet rotated right by `53 mod 26 = 1`, so probing beyond a
full double cycle does break the modulo-26 equivalence. -/
theorem C4_counterexample :
    cypher 53 ≠ rotAlpha 53 ∧ cypher 53 = DIRECT := by
  refine ⟨by decide, by decide⟩

/-- Claim C4, amended: the rotated alphabet built by the searcher equals
the alphabet rotated right by `s mod 26` only for `s ≤ 52`; from 53 on
the slice bounds clamp and the expression freezes at the unrotated
alphabet. Uniformly, `cypher s` is the rotation by `min s 52`. -/
theorem C4_cypher_rotation (s : Nat) :
    cypher s = rotAlpha (min s 52) := by
  by_cases h : s < 53
  · rw [min_eq_left (by omega)]
    exact cypher_of_lt s h
  · rw [min_eq_right (by omega)]
    rw [cypher_of_ge s (by omega)]
    decide

/-- Claim C5, counterexample: encoding with shift 53 (which the code
turns into the identity substitution) and then applying the shift
`(26 - 53) mod 26 = 25` substitution does not reproduce the text. -/
theorem C5_counterexample :
    translateStep (invShift 53) (translateStep 53 "a".toList) ≠ "a".toList := by
  decide

/-- The decoding shift is in `[0, 25]` and cancels `k` modulo 26. -/
theorem invShift_spec (k : Nat) : invShift k < 26 ∧ (k + invShift k) % 26 = 0 := by
  unfold invShift
  omega

/-- Claim C5, amended: for every text and every shift `k ≤ 52` (the
range on which the slice expression really rotates by `k mod 26`),
applying the shift-`k` substitution and then the shift-`(26-k) mod 26`
substitution reproduces the text exactly — non-letters, and uppercase
letters (which the lowercase-keyed table never touches), included. -/
theorem C5_round_trip (t : List Char) (k : Nat) (hk : k ≤ 52) :
    translateStep (invShift k) (translateStep k t) = t := by
  obtain ⟨hlt, hmod⟩ := invShift_spec k
  rw [translateStep_eq_rot k hk, translateStep_eq_rot (invShift k) (by omega)]
  rw [rotText_comp]
  exact rotText_of_mod_eq_zero _ hmod t

/-- Witness for the amended claim C5 at shift 13 on a mixed text. -/
theorem C5_round_trip_witness :
    translateStep (invShift 13) (translateStep 13 "An, apple!".toList) = "An, apple!".toList :=
  C5_round_trip ("An, apple!".toList) 13 (by decide)

/-- Claim C6, counterexample: applying shift 53 (clamped by the code to
the identity) and then shift 0 is not the same as applying shift
`(53 + 0) mod 26 = 1` once. -/
theorem C6_counterexample :
    translateStep 0 (translateStep 53 "a".toList) ≠
      translateStep ((53 + 0) % 26) "a".toList := by
  decide

/-- Claim C6, amended: for shifts `a, b ≤ 52` the substitutions compose
additively modulo 26, and characters outside the lowercase alphabet (in
particular all non-alphabetic characters) pass through unchanged under
every substitution. -/
theorem C6_additivity :
    (∀ (t : List Char) (a b : Nat), a ≤ 52 → b ≤ 52 →
      translateStep b (translateStep a t) = translateStep ((a + b) % 26) t) ∧
    (∀ (k : Nat) (c : Char), c ∉ DIRECT → translateStep k [c] = [c]) := by
  constructor
  · intro t a b ha hb
    rw [translateStep_eq_rot a ha, translateStep_eq_rot b hb,
      translateStep_eq_rot ((a + b) % 26) (by omega)]
    rw [rotText_comp]
    exact (rotText_mod (a + b) t).symm
  · intro k c hc
    show [lookupChar (switch k) c] = [c]
    unfold lookupChar switch
    rw [lookup_zip_none _ _ _ hc]

/-- Witness for the amended claim C6. -/
theorem C6_additivity_witness :
    translateStep 24 (translateStep 3 "xyz".toList) =
      translateStep ((3 + 24) % 26) "xyz".toList ∧
    translateStep 7 ['!'] = ['!'] :=
  ⟨C6_additivity.1 ("xyz".toList) 3 24 (by decide) (by decide),
   C6_additivity.2 7 '!' (by decide)⟩

set_option maxRecDepth 4096 in
/-- Claim C9, counterexample: after 54 iterations the working text is
not the original rotated by the triangular number `54 * 53 / 2 ≡ 1`:
from counter 52 on every pass is the identity, so the text is frozen at
the original (net rotation 0). -/
theorem C9_counterexample :
    textAt (pyLower "a".toList) 54 ≠
      rotText (54 * (54 - 1) / 2) (pyLower "a".toList) := by
  decide

/-- Claim C9, amended: after `n` completed iterations the working text
is the initial text rotated right by the triangular number
`tri (min n 52)` modulo 26 (for `n ≤ 53` this equals `n (n-1) / 2`
modulo 26; beyond that the rotation is frozen at `tri 52 ≡ 0`); the
first iteration applies the identity substitution, and `tri` is the
triangular number `m (m-1) / 2`. -/
theorem C9_invariant :
    (∀ (s0 : List Char) (n : Nat), textAt s0 n = rotText (tri (min n 52)) s0) ∧
    (∀ t : List Char, translateStep 0 t = t) ∧
    (∀ m : Nat, tri m = m * (m - 1) / 2) := by
  refine ⟨textAt_closed, ?_, ?_⟩
  · intro t
    rw [translateStep_eq_rot 0 (by omega) t]
    exact rotText_zero t
  · intro m
    induction m with
    | zero => rfl
    | succ m ih =>
      show tri m + m = (m + 1) * (m + 1 - 1) / 2
      rw [ih]
      cases m with
      | zero => rfl
      | succ j =>
        show (j + 1) * (j + 1 - 1) / 2 + (j + 1) = (j + 2) * (j + 1) / 2
        have key : (j + 2) * (j + 1) = (j + 1) * (j + 1 - 1) + 2 * (j + 1) := by
          simp only [Nat.add_sub_cancel]
          ring
        rw [key, Nat.add_mul_div_left _ _ (by norm_num : (0 : Nat) < 2)]

/-- Claim C1, counterexample: a terminating run (dictionary `d_run`,
ciphertext `s_run`) first exits the loop at counter value 4 — so the
final counter is 5 and the printed shift is 4 — but the printed text is
the lowercased original rotated by 10 (the triangular number `tri 5`),
not by the reported 4. -/
theorem C1_counterexample :
    (∀ m : Nat, m < 4 → matchesAfter d_run (pyLower s_run) m < 25) ∧
    25 ≤ matchesAfter d_run (pyLower s_run) 4 ∧
    textAt (pyLower s_run) 5 = rotText 10 (pyLower s_run) ∧
    textAt (pyLower s_run) 5 ≠ rotText 4 (pyLower s_run) := by
  refine ⟨by decide, by decide, by decide, by decide⟩

/-- Claim C1, amended: in a run that terminates with the loop first
exiting at counter value `n` (so that the printed shift is `n`), the
printed decoded text is the lowercased original ciphertext rotated by
the triangular number `tri (min (n+1) 52)` modulo 26 — which in general
differs from the reported shift `n` (they agree exactly when
`n (n-1) / 2 ≡ 0 (mod 26)`, as happens in the notebook's own run with
`n = 13`). -/
theorem C1_reported_shift (d : Dict) (s : List Char) (n : Nat)
    (_hexit : 25 ≤ matchesAfter d (pyLower s) n)
    (_hfirst : ∀ m : Nat, m < n → matchesAfter d (pyLower s) m < 25) :
    textAt (pyLower s) (n + 1) = rotText (tri (min (n + 1) 52)) (pyLower s) :=
  textAt_closed (pyLower s) (n + 1)

/-- Witness for the amended claim C1: the `d_run`/`s_run` run first
exits at counter 4 and its printed text is the original rotated by
`tri 5 = 10`. -/
theorem C1_reported_shift_witness :
    textAt (pyLower s_run) 5 = rotText (tri (min 5 52)) (pyLower s_run) :=
  C1_reported_shift d_run s_run 4 (by decide) (by decide)

set_option maxRecDepth 4096 in
/-- Claim C3, counterexample: in a run where no rotation ever reaches
the threshold (empty dictionary), the transformed working texts do not
repeat with period 26: iteration 26 differs from iteration 0, and
iteration 27 from iteration 1 (the net shift gains 13, not 0, over
iterations 0–26). -/
theorem C3_counterexample :
    (∀ r : Nat, r < 26 → countMatches ([] : Dict) (rotText r (pyLower "a".toList)) < 25) ∧
    textAt (pyLower "a".toList) 26 ≠ textAt (pyLower "a".toList) 0 ∧
    textAt (pyLower "a".toList) 27 ≠ textAt (pyLower "a".toList) 1 := by
  refine ⟨by decide, by decide, by decide⟩

/-- Claim C3, amended: if no rotation of the lowercased ciphertext ever
yields 25 dictionary matches, the loop guard stays true forever (the
search never terminates); the sequence of working texts is not a
26-cycle, however — from iteration 52 on every pass is the identity and
the text stays frozen at the lowercased original (net rotation
`tri 52 ≡ 0 (mod 26)`). -/
theorem C3_no_termination (d : Dict) (s : List Char)
    (h : ∀ r : Nat, r < 26 → countMatches d (rotText r (pyLower s)) < 25) :
    (∀ n : Nat, matchesAfter d (pyLower s) n < 25) ∧
    (∀ n : Nat, 52 ≤ n → textAt (pyLower s) n = pyLower s) := by
  constructor
  · intro n
    unfold matchesAfter
    rw [textAt_closed, ← rotText_mod]
    exact h _ (Nat.mod_lt _ (by norm_num))
  · intro n hn
    rw [textAt_of_ge _ _ hn]
    exact rotText_tri52 _

/-- Witness for the amended claim C3, on the empty dictionary. -/
theorem C3_no_termination_witness :
    matchesAfter ([] : Dict) (pyLower "a".toList) 100 < 25 ∧
    textAt (pyLower "a".toList) 60 = pyLower "a".toList :=
  ⟨(C3_no_termination [] ("a".toList) (by decide)).1 100,
   (C3_no_termination [] ("a".toList) (by decide)).2 60 (by decide)⟩

/-- Claim C7: the tokenizer yields exactly `["a","b","c"]` on
`"a b\nc"`, the empty sequence on `""`, produces no empty tokens on any
input (runs of spaces or newlines collapse), and preserves line order
then in-line word order (illustrated on a two-blank, blank-line input). -/
theorem C7_tokenizer :
    get_words ("a b\nc".toList) = ["a".toList, "b".toList, "c".toList] ∧
    get_words ("".toList) = [] ∧
    get_words ("a  b\n\nc  ".toList) = ["a".toList, "b".toList, "c".toList] ∧
    (∀ (t w : List Char), w ∈ get_words t → w ≠ []) := by
  refine ⟨by decide, by decide, by decide, ?_⟩
  intro t w hw
  unfold get_words at hw
  rw [List.mem_flatMap] at hw
  obtain ⟨line, _, hmem⟩ := hw
  unfold pySplitWs at hmem
  rw [List.mem_filter] at hmem
  intro hnil
  rw [hnil] at hmem
  exact absurd hmem.2 (by decide)

/-- Witness for claim C7's universally quantified part. -/
theorem C7_tokenizer_witness : "a".toList ≠ ([] : List Char) :=
  C7_tokenizer.2.2.2 ("a b".toList) ("a".toList) (by decide)

/-- Claim C8, counterexample: with the threshold 25 hard-coded in the
loop, the search on the one-token ciphertext `"Ornhgvshy"` never
reaches the guard (the text has a single word, so at most one match per
iteration), hence the searcher does not terminate, for any dictionary
containing `"beautiful"` alone. -/
theorem C8_counterexample : ¬ terminates d_beautiful ("Ornhgvshy".toList) := by
  intro hterm
  obtain ⟨n, hn⟩ := hterm
  unfold matchesAfter at hn
  rw [textAt_closed, ← rotText_mod] at hn
  have hbound : ∀ r : Nat, r < 26 →
      countMatches d_beautiful (rotText r (pyLower "Ornhgvshy".toList)) < 25 := by decide
  have := hbound _ (Nat.mod_lt (tri (min (n + 1) 52)) (by norm_num))
  omega

/-- Claim C8, amended: with the match threshold taken as 1 instead of
the hard-coded 25, the search on `"Ornhgvshy"` with a dictionary
containing `"beautiful"` first exits at counter value 13 — reporting
shift 13 — and the decoded text is `"beautiful"` (the net rotation is
`tri 14 = 91 ≡ 13 (mod 26)`, which happens to coincide with the
reported counter value). -/
theorem C8_threshold_one :
    1 ≤ matchesAfter d_beautiful (pyLower "Ornhgvshy".toList) 13 ∧
    (∀ m : Nat, m < 13 → matchesAfter d_beautiful (pyLower "Ornhgvshy".toList) m < 1) ∧
    textAt (pyLower "Ornhgvshy".toList) 14 = "beautiful".toList := by
  refine ⟨by decide, by decide, by decide⟩

/-- A successful lookup returns a value stored in the list. -/
theorem lookup_mem_values (d : Dict) (w : List Char) (v : PyVal)
    (h : List.lookup w d = some v) : ∃ k, (k, v) ∈ d := by
  induction d with
  | nil => exact absurd h (by simp [List.lookup])
  | cons p d ih =>
    obtain ⟨k0, v0⟩ := p
    by_cases hw : w = k0
    · subst hw
      simp only [List.lookup, beq_self_eq_true, Option.some.injEq] at h
      exact ⟨w, h ▸ List.mem_cons_self _ _⟩
    · simp only [List.lookup, beq_eq_false_iff_ne.mpr hw] at h
      obtain ⟨k, hk⟩ := ih h
      exact ⟨k, List.mem_cons_of_mem _ hk⟩

/-- Looking up in a dictionary whose values were replaced by their
truthiness returns the original value's truthiness. -/
theorem lookup_map_truthy (d : Dict) (w : List Char) :
    List.lookup w (d.map (fun p => (p.1, PyVal.bool (PyVal.truthy p.2)))) =
      (List.lookup w d).map (fun v => PyVal.bool (PyVal.truthy v)) := by
  induction d with
  | nil => rfl
  | cons p d ih =>
    obtain ⟨k0, v0⟩ := p
    show List.lookup w ((k0, PyVal.bool (PyVal.truthy v0)) :: d.map _) = _
    simp only [List.lookup]
    cases hb : (w == k0) with
    | true => rfl
    | false => exact ih

/-- If every value of the dictionary is falsy, lookups never test truthy. -/
theorem dictGet_truthy_false (d : Dict) (w : List Char)
    (h : ∀ p ∈ d, PyVal.truthy p.2 = false) : (dictGet d w).truthy = false := by
  unfold dictGet
  cases hl : List.lookup w d with
  | none => rfl
  | some v =>
    obtain ⟨k, hk⟩ := lookup_mem_values d w v hl
    exact h (k, v) hk

/-- Claim C10: a token is counted only when the value stored under it is
truthy. A key present with a falsy value (None, False, 0, empty string)
never matches; a dictionary whose values are all falsy yields a match
count of 0 on every text; and replacing every value by its truthiness
(a Boolean) leaves every match count unchanged — membership is decided
by value truthiness, not key presence. -/
theorem C10_truthiness :
    (∀ (d : Dict) (w : List Char) (v : PyVal),
      List.lookup w d = some v → PyVal.truthy v = false → wordMatches d w = false) ∧
    (∀ (d : Dict) (t : List Char),
      (∀ p ∈ d, PyVal.truthy p.2 = false) → countMatches d t = 0) ∧
    (∀ (d : Dict) (t : List Char),
      countMatches d t =
        countMatches (d.map (fun p => (p.1, PyVal.bool (PyVal.truthy p.2)))) t) := by
  refine ⟨?_, ?_, ?_⟩
  · intro d w v hl hv
    unfold wordMatches dictGet
    rw [hl]
    exact hv
  · intro d t h
    unfold countMatches
    rw [List.length_eq_zero, List.filter_eq_nil_iff]
    intro w _
    unfold wordMatches
    rw [dictGet_truthy_false d w h]
    exact Bool.false_ne_true
  · intro d t
    unfold countMatches
    congr 1
    apply List.filter_congr
    intro w _
    unfold wordMatches dictGet
    rw [lookup_map_truthy]
    cases List.lookup w d with
    | none => rfl
    | some v => rfl

/-- Witness for claim C10 on a dictionary whose single entry has key
`"x"` and the falsy value `0`. -/
theorem C10_truthiness_witness :
    wordMatches d_falsy ("x".toList) = false ∧
    countMatches d_falsy ("x x x".toList) = 0 :=
  ⟨C10_truthiness.1 d_falsy ("x".toList) (PyVal.int 0) (by decide) (by decide),
   C10_truthiness.2.1 d_falsy ("x x x".toList) (by decide)⟩

/-- Witness for the amended claim C8's bounded universal part. -/
theorem C8_threshold_one_witness :
    matchesAfter d_beautiful (pyLower "Ornhgvshy".toList) 5 < 1 :=
  C8_threshold_one.2.1 5 (by decide)
